import Mathlib

/-!
Verification of the frame-loader module (`loader.py`) of the adaptive water
image velocimetry estimator.

The module provides two loaders over a uniform contract:
an `ImageLoader` over a directory of numbered still images, and a
`VideoLoader` over a video stream with a single-frame lookahead buffer,
plus a selection function `get_loader` choosing between them.

The embedding below models the external decoder (OpenCV) explicitly:
a `Capture` value carries the remaining undecoded frames of the stream, the
frame-count property, and a counter of decode invocations; still-image
decoding (`cv2.imread`) is an environment function `String → Option Frame`
returning `none` on a missing or corrupt file, exactly as `cv2.imread`
returns `None` without raising.
-/

/-- A decoded raster frame, abstracted as an opaque tag. -/
abbrev Frame := Nat

/-- Model of a `cv2.VideoCapture` handle: whether it is open, the frames not
yet decoded, the value of the `CAP_PROP_FRAME_COUNT` property, how many times
its `read()` method has decoded (attempted a decode of) a frame, and whether
`release()` has been called on it. -/
structure Capture where
  opened : Bool
  frames : List Frame
  frameCountProp : Nat
  decodeCount : Nat
  released : Bool
deriving Repr, DecidableEq

/-- Model of `cap.read()`: on an open capture it pops the next frame
(returning `(true, frame)`), or returns `(false, None)` once the stream is
exhausted; on a closed capture it returns `(false, None)` without decoding. -/
def Capture.readFrame (c : Capture) : Capture × Bool × Option Frame :=
  if c.opened then
    match c.frames with
    | [] => ({ c with decodeCount := c.decodeCount + 1 }, false, none)
    | f :: rest =>
        ({ c with frames := rest, decodeCount := c.decodeCount + 1 }, true, some f)
  else (c, false, none)

/-- Model of `cap.release()`: the handle is closed and marked released. -/
def Capture.release (c : Capture) : Capture :=
  { c with opened := false, released := true }

/-- A per-session configuration record, as read from the JSON config store.
The field `image_path_pfx` models the source field `image_path_prefix`
(renamed only because of Lean keyword clashes). -/
structure Config where
  image_number_offset : Nat
  image_dataset : String
  image_path_pfx : String
  image_path_digits : Nat
  video_path : String
deriving Repr, DecidableEq

/-- The character for decimal digit `d` (0-9). -/
def digitChar (d : Nat) : Char := Char.ofNat (48 + d)

/-- Fuel-driven decimal rendering: digits of `n`, most significant first. -/
def decDigitsAux : Nat → Nat → List Char
  | 0, _ => []
  | fuel + 1, n =>
      if n < 10 then [digitChar n]
      else decDigitsAux fuel (n / 10) ++ [digitChar (n % 10)]

/-- The decimal digits of `n`, most significant first (`0` renders as "0"). -/
def decDigits (n : Nat) : List Char := decDigitsAux (n + 1) n

/-- Model of Python's zero-padding format `f'\x7bn:0wd\x7d'`: the decimal
rendering of `n`, left-padded with zeros to at least `w` characters; numbers
with more than `w` digits are rendered in full, not truncated. -/
def padZeros (w n : Nat) : String :=
  String.mk (List.replicate (w - (decDigits n).length) '0' ++ decDigits n)

/-- Model of `ImageLoader`: offset and cursor from the abstract `Loader`
base class, plus the directory path, filename prefix, digit width and the
directory entry count fixed at construction. -/
structure ImageLoader where
  offset : Nat
  index : Nat
  image_dataset : String
  pfx : String
  digits : Nat
  image_number : Nat
deriving Repr, DecidableEq

/-- `ImageLoader.__init__`: copies the config fields and counts the entries
of the image directory (`len(os.listdir(...))`) once at construction. -/
def ImageLoader.init (config : Config) (listdir : String → List String) : ImageLoader :=
  { offset := config.image_number_offset
    index := 0
    image_dataset := config.image_dataset
    pfx := config.image_path_pfx
    digits := config.image_path_digits
    image_number := (listdir config.image_dataset).length }

/-- `ImageLoader.has_images`: `self._index < self._image_number`. -/
def ImageLoader.has_images (l : ImageLoader) : Bool :=
  decide (l.index < l.image_number)

/-- `ImageLoader._path(i)`: adds the offset to `i`, zero-pads to width 5 when
the configured digit count is 5, width 3 when it is 3, and width 4 otherwise,
and builds `dataset/prefix<number>.jpg`. -/
def ImageLoader.filePath (l : ImageLoader) (i : Nat) : String :=
  let j := i + l.offset
  if l.digits = 5 then l.image_dataset ++ "/" ++ l.pfx ++ padZeros 5 j ++ ".jpg"
  else if l.digits = 3 then l.image_dataset ++ "/" ++ l.pfx ++ padZeros 3 j ++ ".jpg"
  else l.image_dataset ++ "/" ++ l.pfx ++ padZeros 4 j ++ ".jpg"

/-- `ImageLoader.set_index`. -/
def ImageLoader.set_index (l : ImageLoader) (index : Nat) : ImageLoader :=
  { l with index := index }

/-- `ImageLoader.read`: increments the cursor, then decodes the file at the
path computed from the new cursor; `imread` is the environment model of
`cv2.imread`, returning `none` on a missing or corrupt file. -/
def ImageLoader.read (l : ImageLoader) (imread : String → Option Frame) :
    ImageLoader × Option Frame :=
  let l1 := { l with index := l.index + 1 }
  (l1, imread (ImageLoader.filePath l1 l1.index))

/-- `n` successive calls to `ImageLoader.read`, collecting the results. -/
def ImageLoader.reads (imread : String → Option Frame) :
    Nat → ImageLoader → ImageLoader × List (Option Frame)
  | 0, l => (l, [])
  | n + 1, l =>
      let p := ImageLoader.read l imread
      let q := ImageLoader.reads imread n p.1
      (q.1, p.2 :: q.2)

/-- Model of `VideoLoader`: offset and cursor, the sequential-read capture
`self._cap`, the lookahead buffer `self._image` with its freshness flag
`self._image_read`, the second capture opened only to query the frame count,
and `self.total_frames`. -/
structure VideoLoader where
  offset : Nat
  index : Nat
  cap : Capture
  image : Option Frame
  imageRead : Bool
  countCap : Capture
  total_frames : Nat
deriving Repr, DecidableEq

/-- `VideoLoader.has_images`: returns false at once if the capture is not
open; otherwise decodes the next frame into the lookahead buffer, marks it
unconsumed, and returns whether the decode succeeded. -/
def VideoLoader.has_images (l : VideoLoader) : VideoLoader × Bool :=
  if l.cap.opened then
    let r := Capture.readFrame l.cap
    ({ l with cap := r.1, image := r.2.2, imageRead := false }, r.2.1)
  else (l, false)

/-- `VideoLoader.read`: increments the cursor; if the buffered frame was
already consumed it decodes a fresh one into the buffer; marks the buffer
consumed and returns it. -/
def VideoLoader.read (l : VideoLoader) : VideoLoader × Option Frame :=
  let l1 := { l with index := l.index + 1 }
  let l2 :=
    if l1.imageRead then
      let r := Capture.readFrame l1.cap
      { l1 with cap := r.1, image := r.2.2 }
    else l1
  let l3 := { l2 with imageRead := true }
  (l3, l3.image)

/-- `VideoLoader.end`: releases the sequential-read capture only. -/
def VideoLoader.end_ (l : VideoLoader) : VideoLoader :=
  { l with cap := Capture.release l.cap }

/-- The constructor's skip loop: `for _ in range(k): if self.has_images():
self.read()`. -/
def VideoLoader.skipLoop : Nat → VideoLoader → VideoLoader
  | 0, l => l
  | k + 1, l =>
      let p := VideoLoader.has_images l
      VideoLoader.skipLoop k (if p.2 then (VideoLoader.read p.1).1 else p.1)

/-- `VideoLoader.__init__`: opens the sequential capture, opens a second
capture to read the frame-count property (adding one), then runs the skip
loop `offset + 1` times. `openVideo` models `cv2.VideoCapture(path)`. -/
def VideoLoader.init (config : Config) (openVideo : String → Capture) : VideoLoader :=
  let cap := openVideo config.video_path
  let countCap := openVideo config.video_path
  VideoLoader.skipLoop (config.image_number_offset + 1)
    { offset := config.image_number_offset
      index := 0
      cap := cap
      image := none
      imageRead := false
      countCap := countCap
      total_frames := countCap.frameCountProp + 1 }

/-- The operations a caller can perform on a `VideoLoader`. -/
inductive VideoOp where
  | hasImagesOp
  | readOp
  | endOp
deriving Repr, DecidableEq

/-- Apply one operation, keeping only the state. -/
def VideoLoader.applyOp (l : VideoLoader) : VideoOp → VideoLoader
  | VideoOp.hasImagesOp => (VideoLoader.has_images l).1
  | VideoOp.readOp => (VideoLoader.read l).1
  | VideoOp.endOp => VideoLoader.end_ l

/-- Run a sequence of operations on a `VideoLoader`. -/
def VideoLoader.run (l : VideoLoader) : List VideoOp → VideoLoader
  | [] => l
  | op :: ops => VideoLoader.run (VideoLoader.applyOp l op) ops

/-- The `has_images()`-then-`read()` call pattern, `n` times, collecting the
frames returned by `read`. -/
def VideoLoader.checkedReads : Nat → VideoLoader → VideoLoader × List (Option Frame)
  | 0, l => (l, [])
  | n + 1, l =>
      let p := VideoLoader.has_images l
      let q := VideoLoader.read p.1
      let t := VideoLoader.checkedReads n q.1
      (t.1, q.2 :: t.2)

/-- The bare `read()` call pattern, `n` times, collecting the frames. -/
def VideoLoader.plainReads : Nat → VideoLoader → VideoLoader × List (Option Frame)
  | 0, l => (l, [])
  | n + 1, l =>
      let q := VideoLoader.read l
      let t := VideoLoader.plainReads n q.1
      (t.1, q.2 :: t.2)

/-- A freshly opened capture over a stream of frames `fs` whose frame-count
property reports `fc`. -/
def streamCap (fs : List Frame) (fc : Nat) : Capture :=
  { opened := true, frames := fs, frameCountProp := fc, decodeCount := 0, released := false }

/-- The polymorphic loader returned by `get_loader`. -/
inductive Loader where
  | image (l : ImageLoader)
  | video (l : VideoLoader)
deriving Repr, DecidableEq

/-- `get_loader`: looks up the record for `video_identifier` in the config
store at `config_path` (`configOf` models the JSON load plus key lookup);
if the configured image directory has at least one entry it builds an
`ImageLoader`, otherwise a `VideoLoader`. -/
def get_loader (configOf : String → String → Option Config)
    (listdir : String → List String) (openVideo : String → Capture)
    (config_path video_identifier : String) : Option Loader :=
  match configOf config_path video_identifier with
  | none => none
  | some config =>
      if listdir config.image_dataset ≠ [] then
        some (Loader.image (ImageLoader.init config listdir))
      else
        some (Loader.video (VideoLoader.init config openVideo))

/-- The effective zero-padding width selected by `ImageLoader._path`: 5 when
the configured digit count is 5, 3 when it is 3, and 4 otherwise. -/
def effWidth (d : Nat) : Nat :=
  if d = 5 then 5 else if d = 3 then 3 else 4

example : decDigits 0 = ['0'] := by decide
example : decDigits 100000 = ['1', '0', '0', '0', '0', '0'] := by decide
example : padZeros 5 7 = "00007" := by decide
example : padZeros 3 1234 = "1234" := by decide


lemma decDigitsAux_succ (fuel n : Nat) :
    decDigitsAux (fuel + 1) n
      = if n < 10 then [digitChar n]
        else decDigitsAux fuel (n / 10) ++ [digitChar (n % 10)] := rfl

lemma decDigitsAux_congr : ∀ f g n : Nat, n < f → n < g →
    decDigitsAux f n = decDigitsAux g n := by
  intro f
  induction f with
  | zero => intro g n h _; omega
  | succ f ih =>
      intro g n hf hg
      match g, hg with
      | g + 1, hg' =>
        rw [decDigitsAux_succ, decDigitsAux_succ]
        by_cases h10 : n < 10
        · rw [if_pos h10, if_pos h10]
        · rw [if_neg h10, if_neg h10]
          have hdiv : n / 10 < n := Nat.div_lt_self (by omega) (by omega)
          rw [ih g (n / 10) (by omega) (by omega)]

lemma decDigits_def (n : Nat) :
    decDigits n = if n < 10 then [digitChar n]
      else decDigits (n / 10) ++ [digitChar (n % 10)] := by
  show decDigitsAux (n + 1) n = _
  rw [decDigitsAux_succ]
  by_cases h10 : n < 10
  · rw [if_pos h10, if_pos h10]
  · rw [if_neg h10, if_neg h10]
    have hdiv : n / 10 < n := Nat.div_lt_self (by omega) (by omega)
    show decDigitsAux n (n / 10) ++ _ = decDigitsAux (n / 10 + 1) (n / 10) ++ _
    rw [decDigitsAux_congr n (n / 10 + 1) (n / 10) (by omega) (by omega)]

lemma decDigits_len_le : ∀ w n : Nat, n < 10 ^ (w + 1) →
    (decDigits n).length ≤ w + 1 := by
  intro w
  induction w with
  | zero =>
      intro n h
      rw [decDigits_def, if_pos (by omega)]
      simp
  | succ w ih =>
      intro n h
      by_cases h10 : n < 10
      · rw [decDigits_def, if_pos h10]; simp
      · rw [decDigits_def, if_neg h10]
        have hdiv : n / 10 < 10 ^ (w + 1) := by
          rw [Nat.div_lt_iff_lt_mul (by omega)]
          calc n < 10 ^ (w + 2) := h
            _ = 10 ^ (w + 1) * 10 := by rw [pow_succ]
        have := ih (n / 10) hdiv
        simp only [List.length_append, List.length_cons, List.length_nil]
        omega

lemma padZeros_length (w n : Nat) :
    (padZeros w n).length = max w (decDigits n).length := by
  simp only [padZeros, String.length_mk, List.length_append, List.length_replicate]
  omega

lemma padZeros_length_eq (w n : Nat) (h : n < 10 ^ (w + 1)) :
    (padZeros (w + 1) n).length = w + 1 := by
  rw [padZeros_length]
  have := decDigits_len_le w n h
  omega

lemma filePath_eq (l : ImageLoader) (i : Nat) :
    ImageLoader.filePath l i
      = l.image_dataset ++ "/" ++ l.pfx
          ++ padZeros (effWidth l.digits) (i + l.offset) ++ ".jpg" := by
  simp only [ImageLoader.filePath, effWidth]
  split_ifs <;> rfl

lemma filePath_index_irrel (l : ImageLoader) (m i : Nat) :
    ImageLoader.filePath { l with index := m } i = ImageLoader.filePath l i := rfl

lemma reads_index (imread : String → Option Frame) : ∀ (n : Nat) (l : ImageLoader),
    (ImageLoader.reads imread n l).1.index = l.index + n := by
  intro n
  induction n with
  | zero => intro l; simp [ImageLoader.reads]
  | succ n ih =>
      intro l
      show (ImageLoader.reads imread n { l with index := l.index + 1 }).1.index = _
      rw [ih]
      show l.index + 1 + n = l.index + (n + 1)
      omega

lemma reads_image_number (imread : String → Option Frame) : ∀ (n : Nat) (l : ImageLoader),
    (ImageLoader.reads imread n l).1.image_number = l.image_number := by
  intro n
  induction n with
  | zero => intro l; simp [ImageLoader.reads]
  | succ n ih =>
      intro l
      show (ImageLoader.reads imread n { l with index := l.index + 1 }).1.image_number = _
      rw [ih]

lemma reads_outputs (imread : String → Option Frame) : ∀ (n : Nat) (l : ImageLoader),
    (ImageLoader.reads imread n l).2
      = (List.range' (l.index + 1) n).map (fun m => imread (ImageLoader.filePath l m)) := by
  intro n
  induction n with
  | zero => intro l; simp [ImageLoader.reads]
  | succ n ih =>
      intro l
      show imread (ImageLoader.filePath { l with index := l.index + 1 } (l.index + 1))
          :: (ImageLoader.reads imread n { l with index := l.index + 1 }).2 = _
      rw [ih, List.range'_succ (l.index + 1) n 1, List.map_cons, filePath_index_irrel]
      congr 1

/-- C3: for an ImageLoader over a directory with N image files and offset o,
after n reads `has_images` still holds exactly when n < N (so it is true for
exactly N interleaved calls to read), and the k-th read (k counted from 1)
decodes the file path carrying the number k + o. -/
theorem c3_image_reads (config : Config) (listdir : String → List String)
    (imread : String → Option Frame) (n : Nat) :
    (ImageLoader.reads imread n (ImageLoader.init config listdir)).1.has_images
        = decide (n < (listdir config.image_dataset).length)
    ∧ (ImageLoader.reads imread n (ImageLoader.init config listdir)).2
        = (List.range' 1 n).map (fun k =>
            imread (config.image_dataset ++ "/" ++ config.image_path_pfx
              ++ padZeros (effWidth config.image_path_digits)
                  (k + config.image_number_offset)
              ++ ".jpg")) := by
  constructor
  · show decide ((ImageLoader.reads imread n (ImageLoader.init config listdir)).1.index
        < (ImageLoader.reads imread n (ImageLoader.init config listdir)).1.image_number) = _
    rw [reads_index, reads_image_number]
    show decide (0 + n < (listdir config.image_dataset).length) = _
    rw [Nat.zero_add]
  · rw [reads_outputs]
    show (List.range' (0 + 1) n).map _ = _
    rw [Nat.zero_add]
    congr 1
    funext k
    rw [filePath_eq]
    rfl

/-- C5 fails as stated: with configured digit count 5 the number in the path
is zero-padded to at least five digits, not exactly five; at i + offset =
100000 the path carries a six-digit number, so no five-character number
component can reproduce the path. -/
theorem c5_counterexample :
    ImageLoader.filePath ⟨0, 0, "d", "f", 5, 1⟩ 100000
        = "d" ++ "/" ++ "f" ++ "100000" ++ ".jpg"
    ∧ ¬ ∃ num : String, num.length = 5
        ∧ ImageLoader.filePath ⟨0, 0, "d", "f", 5, 1⟩ 100000
            = "d" ++ "/" ++ "f" ++ num ++ ".jpg" := by
  constructor
  · decide
  · rintro ⟨num, h5, he⟩
    have hL : (ImageLoader.filePath ⟨0, 0, "d", "f", 5, 1⟩ 100000).length = 13 := by decide
    rw [he] at hL
    simp only [String.length_append, h5] at hL
    have hd : ("d" : String).length = 1 := by decide
    have hs : ("/" : String).length = 1 := by decide
    have hf : ("f" : String).length = 1 := by decide
    have hj : (".jpg" : String).length = 4 := by decide
    rw [hd, hs, hf, hj] at hL
    omega

/-- C5 (amended): the path for logical position i is
directory/prefix + zero-padded(i + offset) + ".jpg", the padding width being
5 when the configured digit count is 5, 3 when it is 3, and 4 otherwise; the
padded number has exactly that width whenever i + offset fits in it
(numbers with more digits are rendered in full, not truncated). -/
theorem c5_amended_path_format (l : ImageLoader) (i : Nat) :
    ImageLoader.filePath l i
      = l.image_dataset ++ "/" ++ l.pfx
          ++ padZeros (effWidth l.digits) (i + l.offset) ++ ".jpg"
    ∧ (i + l.offset < 10 ^ effWidth l.digits →
        (padZeros (effWidth l.digits) (i + l.offset)).length = effWidth l.digits) := by
  refine ⟨filePath_eq l i, fun h => ?_⟩
  have hw : effWidth l.digits = 5 ∨ effWidth l.digits = 3 ∨ effWidth l.digits = 4 := by
    unfold effWidth
    split_ifs <;> simp
  rcases hw with hw | hw | hw <;> rw [hw] at h ⊢
  · exact padZeros_length_eq 4 _ h
  · exact padZeros_length_eq 2 _ h
  · exact padZeros_length_eq 3 _ h

theorem c5_amended_witness :
    ImageLoader.filePath ⟨7, 0, "d", "f", 5, 1⟩ 5
        = "d" ++ "/" ++ "f" ++ padZeros 5 12 ++ ".jpg"
    ∧ (padZeros 5 12).length = 5 :=
  ⟨(c5_amended_path_format ⟨7, 0, "d", "f", 5, 1⟩ 5).1,
   (c5_amended_path_format ⟨7, 0, "d", "f", 5, 1⟩ 5).2 (by decide)⟩

/-- C7: set_index(v) followed by read() advances the cursor to v + 1 and
decodes the path computed for logical frame v + 1. -/
theorem c7_set_index_read (l : ImageLoader) (imread : String → Option Frame) (v : Nat) :
    (ImageLoader.read (ImageLoader.set_index l v) imread).1.index = v + 1
    ∧ (ImageLoader.read (ImageLoader.set_index l v) imread).2
        = imread (ImageLoader.filePath l (v + 1)) :=
  ⟨rfl, rfl⟩

/-- C8 fails as stated: on a missing file (the decode environment returns
none for every path) the read returns normally, with the decoder's None
sentinel as its value; it does not raise or signal instead of returning. -/
theorem c8_counterexample :
    ImageLoader.read ⟨0, 0, "d", "f", 4, 3⟩ (fun _ => none)
      = (⟨0, 1, "d", "f", 4, 3⟩, none) := rfl

/-- C8 (amended): when the computed file is missing or corrupt (the decode
of its path yields none), read() surfaces the failure to the caller as a
returned none frame, after the single decode attempt of the one computed
path — no retry and no exception. -/
theorem c8_amended_decode_failure (l : ImageLoader) (imread : String → Option Frame)
    (h : imread (ImageLoader.filePath l (l.index + 1)) = none) :
    ImageLoader.read l imread = ({ l with index := l.index + 1 }, none) := by
  show ({ l with index := l.index + 1 },
      imread (ImageLoader.filePath { l with index := l.index + 1 } (l.index + 1))) = _
  rw [filePath_index_irrel, h]

theorem c8_amended_witness :
    ImageLoader.read ⟨0, 2, "d", "f", 4, 3⟩ (fun _ => none)
      = (⟨0, 3, "d", "f", 4, 3⟩, none) :=
  c8_amended_decode_failure ⟨0, 2, "d", "f", 4, 3⟩ (fun _ => none) rfl

/-- C4: for every configuration record found under the session key,
get_loader returns an ImageLoader when the configured image directory has at
least one entry and a VideoLoader when it has none. -/
theorem c4_loader_selection (configOf : String → String → Option Config)
    (listdir : String → List String) (openVideo : String → Capture)
    (config_path video_identifier : String) (config : Config)
    (h : configOf config_path video_identifier = some config) :
    (listdir config.image_dataset ≠ [] →
        get_loader configOf listdir openVideo config_path video_identifier
          = some (Loader.image (ImageLoader.init config listdir)))
    ∧ (listdir config.image_dataset = [] →
        get_loader configOf listdir openVideo config_path video_identifier
          = some (Loader.video (VideoLoader.init config openVideo))) := by
  constructor <;> intro h2 <;> simp [get_loader, h, h2]

theorem c4_witness :
    get_loader (fun _ _ => some ⟨0, "d", "f", 4, "v"⟩) (fun _ => ["a"])
        (fun _ => streamCap [] 0) "cp" "vid"
      = some (Loader.image (ImageLoader.init ⟨0, "d", "f", 4, "v"⟩ (fun _ => ["a"])))
    ∧ get_loader (fun _ _ => some ⟨0, "d", "f", 4, "v"⟩) (fun _ => ([] : List String))
        (fun _ => streamCap [] 0) "cp" "vid"
      = some (Loader.video (VideoLoader.init ⟨0, "d", "f", 4, "v"⟩
          (fun _ => streamCap [] 0))) :=
  ⟨(c4_loader_selection _ _ _ _ _ _ rfl).1 (by simp),
   (c4_loader_selection _ _ _ _ _ _ rfl).2 rfl⟩

lemma read_fst_imageRead (l : VideoLoader) : (VideoLoader.read l).1.imageRead = true := rfl

lemma hasImages_then_read_eq (l : VideoLoader) (h : l.imageRead = true) :
    VideoLoader.read (VideoLoader.has_images l).1 = VideoLoader.read l := by
  obtain ⟨o, ix, ⟨op, fr, fcp, dc, rel⟩, img, ir, cc, tf⟩ := l
  have h' : ir = true := h
  subst h'
  cases op <;> cases fr <;> rfl

lemma checkedReads_eq_plainReads : ∀ (n : Nat) (l : VideoLoader), l.imageRead = true →
    VideoLoader.checkedReads n l = VideoLoader.plainReads n l := by
  intro n
  induction n with
  | zero => intro l _; rfl
  | succ n ih =>
      intro l h
      show ((VideoLoader.checkedReads n (VideoLoader.read (VideoLoader.has_images l).1).1).1,
            (VideoLoader.read (VideoLoader.has_images l).1).2
              :: (VideoLoader.checkedReads n (VideoLoader.read (VideoLoader.has_images l).1).1).2)
          = _
      rw [hasImages_then_read_eq l h]
      rw [ih (VideoLoader.read l).1 (read_fst_imageRead l)]
      rfl

lemma read_cons (l : VideoLoader) (f : Frame) (rest : List Frame)
    (ho : l.cap.opened = true) (hr : l.imageRead = true) (hf : l.cap.frames = f :: rest) :
    VideoLoader.read l
      = ({ l with
            index := l.index + 1
            cap := { l.cap with frames := rest, decodeCount := l.cap.decodeCount + 1 }
            image := some f
            imageRead := true }, some f) := by
  obtain ⟨o, ix, ⟨op, fr, fcp, dc, rel⟩, img, ir, cc, tf⟩ := l
  have ho' : op = true := ho
  have hr' : ir = true := hr
  have hf' : fr = f :: rest := hf
  subst ho'; subst hr'; subst hf'
  rfl

lemma read_snd_opened (l : VideoLoader) (ho : l.cap.opened = true) (hr : l.imageRead = true) :
    (VideoLoader.read l).2 = l.cap.frames.head? := by
  obtain ⟨o, ix, ⟨op, fr, fcp, dc, rel⟩, img, ir, cc, tf⟩ := l
  have ho' : op = true := ho
  have hr' : ir = true := hr
  subst ho'; subst hr'
  cases fr <;> rfl

lemma read_snd_notRead (l : VideoLoader) (hr : l.imageRead = false) :
    (VideoLoader.read l).2 = l.image := by
  obtain ⟨o, ix, ⟨op, fr, fcp, dc, rel⟩, img, ir, cc, tf⟩ := l
  have hr' : ir = false := hr
  subst hr'
  rfl

lemma plainReads_spec : ∀ (n : Nat) (l : VideoLoader), l.cap.opened = true →
    l.imageRead = true → n ≤ l.cap.frames.length →
    (VideoLoader.plainReads n l).2 = (l.cap.frames.take n).map some
    ∧ (VideoLoader.plainReads n l).1.cap.decodeCount = l.cap.decodeCount + n := by
  intro n
  induction n with
  | zero => intro l _ _ _; exact ⟨rfl, rfl⟩
  | succ n ih =>
      intro l ho hr hlen
      cases hfr : l.cap.frames with
      | nil => rw [hfr] at hlen; simp at hlen
      | cons f rest =>
          have hstep := read_cons l f rest ho hr hfr
          have hlen' : n ≤ rest.length := by
            rw [hfr] at hlen
            simpa using hlen
          obtain ⟨ihA, ihB⟩ := ih (VideoLoader.read l).1
            (by rw [hstep]; exact ho) (by rw [hstep]) (by rw [hstep]; exact hlen')
          constructor
          · show (VideoLoader.read l).2 :: (VideoLoader.plainReads n (VideoLoader.read l).1).2 = _
            rw [ihA, hstep, List.take_succ_cons, List.map_cons]
          · show (VideoLoader.plainReads n (VideoLoader.read l).1).1.cap.decodeCount = _
            rw [ihB, hstep]
            show l.cap.decodeCount + 1 + n = l.cap.decodeCount + (n + 1)
            omega

lemma skipLoop_succ_unfold (k : Nat) (l : VideoLoader) :
    VideoLoader.skipLoop (k + 1) l
      = VideoLoader.skipLoop k
          (if (VideoLoader.has_images l).2
            then (VideoLoader.read (VideoLoader.has_images l).1).1
            else (VideoLoader.has_images l).1) := rfl

lemma skipLoop_step (l : VideoLoader) (f : Frame) (rest : List Frame) (k : Nat)
    (ho : l.cap.opened = true) (hf : l.cap.frames = f :: rest) :
    VideoLoader.skipLoop (k + 1) l
      = VideoLoader.skipLoop k
          { l with
              index := l.index + 1
              cap := { l.cap with frames := rest, decodeCount := l.cap.decodeCount + 1 }
              image := some f
              imageRead := true } := by
  obtain ⟨o, ix, ⟨op, fr, fcp, dc, rel⟩, img, ir, cc, tf⟩ := l
  have ho' : op = true := ho
  have hf' : fr = f :: rest := hf
  subst ho'; subst hf'
  rfl

lemma skipLoop_step_empty (l : VideoLoader) (k : Nat)
    (ho : l.cap.opened = true) (hf : l.cap.frames = []) :
    VideoLoader.skipLoop (k + 1) l
      = VideoLoader.skipLoop k
          { l with
              cap := { l.cap with decodeCount := l.cap.decodeCount + 1 }
              image := none
              imageRead := false } := by
  obtain ⟨o, ix, ⟨op, fr, fcp, dc, rel⟩, img, ir, cc, tf⟩ := l
  have ho' : op = true := ho
  have hf' : fr = ([] : List Frame) := hf
  subst ho'; subst hf'
  rfl

lemma skipLoop_succ_spec : ∀ (k : Nat) (l : VideoLoader), l.cap.opened = true →
    k + 1 ≤ l.cap.frames.length →
    VideoLoader.skipLoop (k + 1) l
      = { l with
          index := l.index + (k + 1)
          cap := { l.cap with
                   frames := l.cap.frames.drop (k + 1)
                   decodeCount := l.cap.decodeCount + (k + 1) }
          image := l.cap.frames[k]?
          imageRead := true } := by
  intro k
  induction k with
  | zero =>
      intro l ho hlen
      cases hfr : l.cap.frames with
      | nil => rw [hfr] at hlen; simp at hlen
      | cons f rest =>
          rw [skipLoop_step l f rest 0 ho hfr]
          simp [VideoLoader.skipLoop]
  | succ k ih =>
      intro l ho hlen
      cases hfr : l.cap.frames with
      | nil => rw [hfr] at hlen; simp at hlen
      | cons f rest =>
          rw [skipLoop_step l f rest (k + 1) ho hfr]
          have hlen' : k + 1 ≤ rest.length := by
            rw [hfr] at hlen
            simpa using hlen
          rw [ih { l with
              index := l.index + 1
              cap := { l.cap with frames := rest, decodeCount := l.cap.decodeCount + 1 }
              image := some f
              imageRead := true } ho hlen']
          simp only [VideoLoader.mk.injEq, Capture.mk.injEq, List.drop_succ_cons,
            List.getElem?_cons_succ, and_true, true_and]
          omega

lemma skipLoop_frames : ∀ (k : Nat) (l : VideoLoader), l.cap.opened = true →
    (VideoLoader.skipLoop k l).cap.frames = l.cap.frames.drop k := by
  intro k
  induction k with
  | zero => intro l _; rfl
  | succ k ih =>
      intro l ho
      cases hfr : l.cap.frames with
      | nil =>
          rw [skipLoop_step_empty l k ho hfr]
          rw [ih { l with
              cap := { l.cap with decodeCount := l.cap.decodeCount + 1 }
              image := none
              imageRead := false } ho]
          simp [hfr]
      | cons f rest =>
          rw [skipLoop_step l f rest k ho hfr]
          rw [ih { l with
              index := l.index + 1
              cap := { l.cap with frames := rest, decodeCount := l.cap.decodeCount + 1 }
              image := some f
              imageRead := true } ho]
          simp

lemma skipLoop_empty_spec : ∀ (k : Nat) (l : VideoLoader), l.cap.opened = true →
    l.cap.frames = [] → 1 ≤ k →
    VideoLoader.skipLoop k l
      = { l with
          cap := { l.cap with decodeCount := l.cap.decodeCount + k }
          image := none
          imageRead := false } := by
  intro k
  induction k with
  | zero => intro l _ _ hk; omega
  | succ k ih =>
      intro l ho hf _
      rw [skipLoop_step_empty l k ho hf]
      rcases Nat.eq_zero_or_pos k with hk | hk
      · subst hk
        simp [VideoLoader.skipLoop]
      · rw [ih { l with
            cap := { l.cap with decodeCount := l.cap.decodeCount + 1 }
            image := none
            imageRead := false } ho hf hk]
        simp only [VideoLoader.mk.injEq, Capture.mk.injEq, and_true, true_and]
        omega

lemma skipLoop_add : ∀ (a b : Nat) (l : VideoLoader),
    VideoLoader.skipLoop (a + b) l
      = VideoLoader.skipLoop b (VideoLoader.skipLoop a l) := by
  intro a
  induction a with
  | zero =>
      intro b l
      rw [Nat.zero_add]
      rfl
  | succ a ih =>
      intro b l
      have hswap : a + 1 + b = (a + b) + 1 := by omega
      rw [hswap, skipLoop_succ_unfold, skipLoop_succ_unfold, ih]

lemma skipStep_countCap (l : VideoLoader) :
    (if (VideoLoader.has_images l).2
      then (VideoLoader.read (VideoLoader.has_images l).1).1
      else (VideoLoader.has_images l).1).countCap = l.countCap := by
  obtain ⟨o, ix, ⟨op, fr, fcp, dc, rel⟩, img, ir, cc, tf⟩ := l
  cases op <;> cases fr <;> rfl

lemma skipStep_total_frames (l : VideoLoader) :
    (if (VideoLoader.has_images l).2
      then (VideoLoader.read (VideoLoader.has_images l).1).1
      else (VideoLoader.has_images l).1).total_frames = l.total_frames := by
  obtain ⟨o, ix, ⟨op, fr, fcp, dc, rel⟩, img, ir, cc, tf⟩ := l
  cases op <;> cases fr <;> rfl

lemma skipLoop_countCap : ∀ (k : Nat) (l : VideoLoader),
    (VideoLoader.skipLoop k l).countCap = l.countCap := by
  intro k
  induction k with
  | zero => intro l; rfl
  | succ k ih =>
      intro l
      rw [skipLoop_succ_unfold k l, ih, skipStep_countCap]

lemma skipLoop_total_frames : ∀ (k : Nat) (l : VideoLoader),
    (VideoLoader.skipLoop k l).total_frames = l.total_frames := by
  intro k
  induction k with
  | zero => intro l; rfl
  | succ k ih =>
      intro l
      rw [skipLoop_succ_unfold k l, ih, skipStep_total_frames]

lemma applyOp_countCap (l : VideoLoader) (op : VideoOp) :
    (VideoLoader.applyOp l op).countCap = l.countCap := by
  obtain ⟨o, ix, ⟨opn, fr, fcp, dc, rel⟩, img, ir, cc, tf⟩ := l
  cases op <;> cases opn <;> cases fr <;> cases ir <;> rfl

lemma run_countCap : ∀ (ops : List VideoOp) (l : VideoLoader),
    (VideoLoader.run l ops).countCap = l.countCap := by
  intro ops
  induction ops with
  | nil => intro l; rfl
  | cons op ops ih =>
      intro l
      show (VideoLoader.run (VideoLoader.applyOp l op) ops).countCap = _
      rw [ih, applyOp_countCap]

/-- C1: over the same sufficiently long stream, the has_images-then-read
pattern and the bare-read pattern produce identical states and identical
frame sequences; the n frames produced cost exactly n decoder invocations in
the bare pattern (hence, by the equality, in the checked pattern too), and
the constructor itself decoded exactly o + 1 frames. -/
theorem c1_pattern_equivalence (fs : List Frame) (fc o n pd : Nat) (ds p v : String)
    (h : o + 1 + n ≤ fs.length) :
    VideoLoader.checkedReads n
        (VideoLoader.init ⟨o, ds, p, pd, v⟩ (fun _ => streamCap fs fc))
      = VideoLoader.plainReads n
        (VideoLoader.init ⟨o, ds, p, pd, v⟩ (fun _ => streamCap fs fc))
    ∧ (VideoLoader.plainReads n
        (VideoLoader.init ⟨o, ds, p, pd, v⟩ (fun _ => streamCap fs fc))).2
      = ((fs.drop (o + 1)).take n).map some
    ∧ (VideoLoader.plainReads n
        (VideoLoader.init ⟨o, ds, p, pd, v⟩ (fun _ => streamCap fs fc))).1.cap.decodeCount
      = (VideoLoader.init ⟨o, ds, p, pd, v⟩ (fun _ => streamCap fs fc)).cap.decodeCount + n
    ∧ (VideoLoader.init ⟨o, ds, p, pd, v⟩ (fun _ => streamCap fs fc)).cap.decodeCount
      = o + 1 := by
  have hinit : VideoLoader.init ⟨o, ds, p, pd, v⟩ (fun _ => streamCap fs fc)
      = { offset := o
          index := 0 + (o + 1)
          cap := { opened := true
                   frames := fs.drop (o + 1)
                   frameCountProp := fc
                   decodeCount := 0 + (o + 1)
                   released := false }
          image := fs[o]?
          imageRead := true
          countCap := streamCap fs fc
          total_frames := fc + 1 } := by
    show VideoLoader.skipLoop (o + 1) _ = _
    rw [skipLoop_succ_spec o _ rfl (by show o + 1 ≤ fs.length; omega)]
    rfl
  rw [hinit]
  have hn : n ≤ (fs.drop (o + 1)).length := by
    rw [List.length_drop]
    omega
  refine ⟨checkedReads_eq_plainReads n _ rfl,
    (plainReads_spec n _ rfl rfl hn).1,
    (plainReads_spec n _ rfl rfl hn).2, ?_⟩
  show 0 + (o + 1) = o + 1
  omega

theorem c1_witness :
    VideoLoader.checkedReads 2
        (VideoLoader.init ⟨0, "d", "f", 4, "v"⟩ (fun _ => streamCap [1, 2, 3, 4] 4))
      = VideoLoader.plainReads 2
        (VideoLoader.init ⟨0, "d", "f", 4, "v"⟩ (fun _ => streamCap [1, 2, 3, 4] 4))
    ∧ (VideoLoader.plainReads 2
        (VideoLoader.init ⟨0, "d", "f", 4, "v"⟩ (fun _ => streamCap [1, 2, 3, 4] 4))).2
      = [some 2, some 3] :=
  ⟨(c1_pattern_equivalence [1, 2, 3, 4] 4 0 2 4 "d" "f" "v" (by decide)).1,
   ((c1_pattern_equivalence [1, 2, 3, 4] 4 0 2 4 "d" "f" "v" (by decide)).2.1).trans
     (by decide)⟩

/-- C2: construction over a stream fs consumes exactly min (o + 1)
(length fs) frames — that is, exactly o + 1, or fewer when the stream ends
first — and the first subsequent read yields frame o + 2 of the stream
(position o + 1 counting from 0), or none when the stream is too short. -/
theorem c2_skip_on_construction (fs : List Frame) (fc o pd : Nat) (ds p v : String) :
    fs.length
        - ((VideoLoader.init ⟨o, ds, p, pd, v⟩ (fun _ => streamCap fs fc)).cap.frames).length
      = min (o + 1) fs.length
    ∧ (VideoLoader.read (VideoLoader.init ⟨o, ds, p, pd, v⟩ (fun _ => streamCap fs fc))).2
        = fs[o + 1]? := by
  have hinit : VideoLoader.init ⟨o, ds, p, pd, v⟩ (fun _ => streamCap fs fc)
      = VideoLoader.skipLoop (o + 1)
          { offset := o
            index := 0
            cap := streamCap fs fc
            image := none
            imageRead := false
            countCap := streamCap fs fc
            total_frames := fc + 1 } := rfl
  constructor
  · rw [hinit, skipLoop_frames (o + 1) _ rfl]
    show fs.length - (fs.drop (o + 1)).length = _
    rw [List.length_drop]
    omega
  · rcases Nat.lt_or_ge fs.length (o + 1) with hlt | hge
    · rw [List.getElem?_eq_none (by omega), hinit]
      rcases Nat.eq_zero_or_pos fs.length with h0 | hpos
      · have hfs : fs = [] := List.length_eq_zero.mp h0
        subst hfs
        rw [skipLoop_empty_spec (o + 1) _ rfl rfl (by omega)]
        exact read_snd_notRead _ rfl
      · obtain ⟨k, hk⟩ : ∃ k, fs.length = k + 1 := ⟨fs.length - 1, by omega⟩
        have hsplit : o + 1 = (k + 1) + (o - k) := by omega
        rw [hsplit, skipLoop_add]
        rw [skipLoop_succ_spec k _ rfl (by show k + 1 ≤ fs.length; omega)]
        rw [skipLoop_empty_spec (o - k) _ rfl
          (by
            show fs.drop (k + 1) = []
            exact List.drop_eq_nil_of_le (by omega))
          (by omega)]
        exact read_snd_notRead _ rfl
    · rw [hinit, skipLoop_succ_spec o _ rfl hge]
      rw [read_snd_opened _ rfl rfl]
      show (fs.drop (o + 1)).head? = _
      exact List.head?_drop fs (o + 1)

/-- C6: the total_frames value fixed at construction equals the decoder's
reported frame-count property plus one. -/
theorem c6_total_frames (config : Config) (openVideo : String → Capture) :
    (VideoLoader.init config openVideo).total_frames
      = (openVideo config.video_path).frameCountProp + 1 :=
  skipLoop_total_frames (config.image_number_offset + 1) _

/-- C9: VideoLoader.read always returns (the embedding is a total function)
and increments the cursor by exactly one; when the stream is exhausted (so
has_images just returned false) or the capture never opened (and the buffer
is in its initial empty state), it returns the empty none value rather than
signalling failure. -/
theorem c9_video_read_total (l : VideoLoader) :
    (VideoLoader.read l).1.index = l.index + 1
    ∧ (l.cap.opened = true → l.cap.frames = [] →
        (VideoLoader.has_images l).2 = false
        ∧ (VideoLoader.read (VideoLoader.has_images l).1).2 = none)
    ∧ (l.cap.opened = false → l.image = none →
        (VideoLoader.read l).2 = none ∧ (VideoLoader.read l).1.image = none) := by
  obtain ⟨o, ix, ⟨op, fr, fcp, dc, rel⟩, img, ir, cc, tf⟩ := l
  cases ir <;> refine ⟨rfl, fun ho hf => ?_, fun ho hi => ?_⟩
  · have ho' : op = true := ho
    have hf' : fr = ([] : List Frame) := hf
    subst ho'; subst hf'
    exact ⟨rfl, rfl⟩
  · have ho' : op = false := ho
    have hi' : img = (none : Option Frame) := hi
    subst ho'; subst hi'
    exact ⟨rfl, rfl⟩
  · have ho' : op = true := ho
    have hf' : fr = ([] : List Frame) := hf
    subst ho'; subst hf'
    exact ⟨rfl, rfl⟩
  · have ho' : op = false := ho
    have hi' : img = (none : Option Frame) := hi
    subst ho'; subst hi'
    exact ⟨rfl, rfl⟩

theorem c9_witness :
    (VideoLoader.read ⟨0, 5, ⟨true, [], 9, 0, false⟩, some 3, true, streamCap [] 0, 1⟩).1.index
        = 5 + 1
    ∧ (VideoLoader.has_images
        ⟨0, 5, ⟨true, [], 9, 0, false⟩, some 3, true, streamCap [] 0, 1⟩).2 = false
    ∧ (VideoLoader.read (VideoLoader.has_images
        ⟨0, 5, ⟨true, [], 9, 0, false⟩, some 3, true, streamCap [] 0, 1⟩).1).2 = none
    ∧ (VideoLoader.read
        ⟨0, 0, ⟨false, [7], 9, 0, false⟩, none, false, streamCap [] 0, 1⟩).2 = none :=
  ⟨(c9_video_read_total ⟨0, 5, ⟨true, [], 9, 0, false⟩, some 3, true, streamCap [] 0, 1⟩).1,
   ((c9_video_read_total
      ⟨0, 5, ⟨true, [], 9, 0, false⟩, some 3, true, streamCap [] 0, 1⟩).2.1 rfl rfl).1,
   ((c9_video_read_total
      ⟨0, 5, ⟨true, [], 9, 0, false⟩, some 3, true, streamCap [] 0, 1⟩).2.1 rfl rfl).2,
   ((c9_video_read_total
      ⟨0, 0, ⟨false, [7], 9, 0, false⟩, none, false, streamCap [] 0, 1⟩).2.2 rfl rfl).1⟩

/-- C10: construction opens a second capture used only for the frame-count
query: it is stored untouched (equal to a freshly opened capture), no
sequence of loader operations ever changes or releases it, and end()
releases exactly the sequential-read capture, leaving everything else — the
second capture included — unchanged. -/
theorem c10_second_capture_leak (config : Config) (openVideo : String → Capture)
    (h : (openVideo config.video_path).released = false) :
    (VideoLoader.init config openVideo).countCap = openVideo config.video_path
    ∧ (VideoLoader.init config openVideo).total_frames
        = (openVideo config.video_path).frameCountProp + 1
    ∧ (∀ ops : List VideoOp,
        (VideoLoader.run (VideoLoader.init config openVideo) ops).countCap
            = openVideo config.video_path
        ∧ (VideoLoader.run (VideoLoader.init config openVideo) ops).countCap.released
            = false)
    ∧ (∀ l : VideoLoader,
        VideoLoader.end_ l = { l with cap := Capture.release l.cap }
        ∧ (VideoLoader.end_ l).cap.released = true
        ∧ (VideoLoader.end_ l).countCap = l.countCap) := by
  refine ⟨skipLoop_countCap _ _, skipLoop_total_frames _ _,
    fun ops => ⟨?_, ?_⟩, fun l => ⟨rfl, rfl, rfl⟩⟩
  · rw [run_countCap]
    exact skipLoop_countCap _ _
  · have hcc : (VideoLoader.init config openVideo).countCap = openVideo config.video_path :=
      skipLoop_countCap _ _
    rw [run_countCap, hcc]
    exact h

theorem c10_witness :
    (VideoLoader.init ⟨1, "d", "f", 4, "v"⟩ (fun _ => streamCap [5, 6] 2)).countCap
        = streamCap [5, 6] 2
    ∧ (VideoLoader.run (VideoLoader.init ⟨1, "d", "f", 4, "v"⟩ (fun _ => streamCap [5, 6] 2))
        [VideoOp.readOp, VideoOp.endOp]).countCap.released = false
    ∧ (VideoLoader.end_
        (VideoLoader.init ⟨1, "d", "f", 4, "v"⟩ (fun _ => streamCap [5, 6] 2))).countCap
        = streamCap [5, 6] 2 :=
  ⟨(c10_second_capture_leak ⟨1, "d", "f", 4, "v"⟩ (fun _ => streamCap [5, 6] 2) rfl).1,
   ((c10_second_capture_leak ⟨1, "d", "f", 4, "v"⟩ (fun _ => streamCap [5, 6] 2) rfl).2.2.1
      [VideoOp.readOp, VideoOp.endOp]).2,
   (((c10_second_capture_leak ⟨1, "d", "f", 4, "v"⟩ (fun _ => streamCap [5, 6] 2) rfl).2.2.2
      (VideoLoader.init ⟨1, "d", "f", 4, "v"⟩ (fun _ => streamCap [5, 6] 2))).2.2).trans
     ((c10_second_capture_leak ⟨1, "d", "f", 4, "v"⟩ (fun _ => streamCap [5, 6] 2) rfl).1)⟩
